import Mathlib

/-!
Shallow embedding of the DAO governance engine (`DAOGovernance` class):
member registration, proposal lifecycle, vote tallying, quorum/approval
finalization, and delayed execution.

Modelling conventions:
* JS numbers are modelled as exact rationals `ℚ`; the IEEE special values
  that arise from division by zero (`Infinity`, `-Infinity`, `NaN`) are
  modelled explicitly by `JsNum`, with the JS semantics of `/` and `>=`
  on those values (`x/0 = Infinity` for `x > 0`, `0/0 = NaN`,
  `NaN >= y = false`, `Infinity >= y = true`).
* Timestamps (`Date.now()`, ISO strings) are modelled as a single rational
  `now` passed to each operation; the source formats/parses ISO strings,
  which is an isomorphic round-trip on instants.
* `Map` objects are modelled as association lists; `Map.set` overwrites an
  existing key in place and otherwise appends.
* `_generateId` produces ids from the clock and `Math.random`; generated
  ids are pairwise distinct and, being of the dash-delimited shape
  `PROP-<time>-<alnum>`, never collide with one another under the
  `${proposalId}-${voterId}` vote-key concatenation. The model realises
  this by drawing proposal ids from a fresh counter (`nextId`) and keying
  vote records by the (proposalId, voterId) pair.
* A JS method that mutates `this` and then `throw`s leaves the mutation in
  place; each operation therefore returns the post-call state alongside
  an `Except` result.
-/

/-- JS number semantics for the results of division: either a finite
rational or one of the IEEE special values produced by a zero denominator. -/
inductive JsNum where
  | num (q : ℚ)
  | inf
  | negInf
  | nan
deriving DecidableEq, Repr

/-- JS division `a / b` for finite `a`, `b`: finite quotient when `b ≠ 0`,
otherwise `Infinity`, `-Infinity` or `NaN` according to the sign of `a`. -/
def jsDiv (a b : ℚ) : JsNum :=
  if b ≠ 0 then .num (a / b)
  else if a > 0 then .inf
  else if a < 0 then .negInf
  else .nan

/-- JS `>=` against a finite right operand: `NaN >= y` is `false`,
`Infinity >= y` is `true`, `-Infinity >= y` is `false`. -/
def JsNum.jsGe : JsNum → ℚ → Bool
  | .num a, b => a ≥ b
  | .inf, _ => true
  | .negInf, _ => false
  | .nan, _ => false

/-- Association-list lookup, modelling `Map.prototype.get`. -/
def getA {κ α : Type} [BEq κ] (l : List (κ × α)) (k : κ) : Option α :=
  (l.find? (fun e => e.1 == k)).map (·.2)

/-- Association-list insert-or-overwrite, modelling `Map.prototype.set`. -/
def setA {κ α : Type} [BEq κ] (l : List (κ × α)) (k : κ) (v : α) : List (κ × α) :=
  if l.any (fun e => e.1 == k) then
    l.map (fun e => if e.1 == k then (k, v) else e)
  else
    l ++ [(k, v)]

attribute [local semireducible] Rat.mul Rat.inv Rat.add Rat.sub

/-- Proposal lifecycle states: `'active'`, `'closed'`, `'approved'`,
`'rejected'`, `'executed'`. -/
inductive Status where
  | active
  | closed
  | approved
  | rejected
  | executed
deriving DecidableEq, Repr

/-- A registered governance member (`registerMember` record). -/
structure Member where
  id : String
  name : String
  votingPower : ℚ
  role : String
  verified : Bool
  joinedAt : ℚ
  proposalsCreated : Nat
  votesSubmitted : Nat
deriving DecidableEq, Repr

/-- The `proposal.votes` tally accumulators `{for, against, abstain}`. -/
structure VoteTallies where
  «for» : ℚ
  against : ℚ
  abstain : ℚ
deriving DecidableEq, Repr

/-- The `proposal.result` record written by `finalizeProposal`. -/
structure FinalResult where
  quorumMet : Bool
  approvalMet : Bool
  participationRate : JsNum
  approvalRate : JsNum
  finalizedAt : ℚ
deriving DecidableEq, Repr

/-- A proposal record. Proposal ids are drawn from the store's fresh
counter (see the modelling note on `_generateId`). -/
structure Proposal where
  id : Nat
  title : String
  description : String
  proposerId : String
  proposerName : String
  category : String
  status : Status
  createdAt : ℚ
  votingStartsAt : ℚ
  votingEndsAt : ℚ
  executionDelay : ℚ
  quorumThreshold : ℚ
  approvalThreshold : ℚ
  votes : VoteTallies
  voters : List String
  result : Option FinalResult
  executedAt : Option ℚ
  executionScheduledAt : Option ℚ
  executionContext : Option String
deriving DecidableEq, Repr

/-- A vote record stored under the `(proposalId, voterId)` key. -/
structure VoteRecord where
  proposalId : Nat
  voterId : String
  choice : String
  power : ℚ
  timestamp : ℚ
deriving DecidableEq, Repr

/-- The `DAOGovernance` store: `proposals`, `votes` and `members` maps,
plus the fresh-id counter modelling `_generateId`. -/
structure DAOGovernance where
  proposals : List (Nat × Proposal)
  votes : List VoteRecord
  members : List (String × Member)
  nextId : Nat
deriving DecidableEq, Repr

/-- The store produced by the constructor: all three maps empty. -/
def initGov : DAOGovernance := ⟨[], [], [], 0⟩

/-- Argument record of `registerMember`;  destructuring defaults
(`votingPower = 1`, `role = 'member'`, `verified = false`) are applied by
the operation, so an absent field is `none`. -/
structure MemberData where
  id : String
  name : String
  votingPower : Option ℚ
  role : Option String
  verified : Option Bool
deriving DecidableEq, Repr

/-- Argument record of `createProposal`; defaultable fields are optional. -/
structure ProposalData where
  title : String
  description : String
  proposerId : String
  category : Option String
  votingPeriod : Option ℚ
  quorumThreshold : Option ℚ
  approvalThreshold : Option ℚ
  executionDelay : Option ℚ
deriving DecidableEq, Repr

/-- The typed failures thrown by the engine, one constructor per `throw`
site of the source. -/
inductive GovError where
  /-- `'Proposal not found'` -/
  | proposalNotFound
  /-- `'Voting period has ended for this proposal'` (`status !== 'active'`) -/
  | votingClosed
  /-- `'Voter not registered'` -/
  | voterNotRegistered
  /-- `'Member has already voted on this proposal'` -/
  | alreadyVoted
  /-- `'Voting period has ended'` (lazy-expiry branch of `vote`) -/
  | votingEnded
  /-- `'Invalid vote choice. Must be: for, against, or abstain'` -/
  | invalidChoice
  /-- `'Proposer not found or not registered'` -/
  | proposerNotFound
  /-- `'Proposal already finalized'` -/
  | alreadyFinalized
  /-- `'Only approved proposals can be executed'` -/
  | notApproved
  /-- `'Execution delay period has not elapsed'` -/
  | delayNotElapsed
deriving DecidableEq, Repr

/-- The spec's `VotingClosedError` covers both voting-window failures of
`vote`: the `status !== 'active'` throw and the lazy-expiry throw. -/
def GovError.isVotingClosed : GovError → Bool
  | .votingClosed => true
  | .votingEnded => true
  | _ => false

/-- The member record built by `registerMember`. -/
def mkMember (now : ℚ) (d : MemberData) : Member :=
  { id := d.id
    name := d.name
    votingPower := d.votingPower.getD 1
    role := d.role.getD "member"
    verified := d.verified.getD false
    joinedAt := now
    proposalsCreated := 0
    votesSubmitted := 0 }

/-- `registerMember(memberData)`: builds the member record and `set`s it
into the members map (silently overwriting an existing id). Never fails. -/
def registerMember (g : DAOGovernance) (now : ℚ) (d : MemberData) :
    Member × DAOGovernance :=
  let member := mkMember now d
  (member, { g with members := setA g.members d.id member })

/-- `createProposal(proposalData)`: requires a registered proposer, builds
an ACTIVE proposal with the documented defaults, stores it under a fresh
id and increments the proposer's `proposalsCreated`. -/
def createProposal (g : DAOGovernance) (now : ℚ) (d : ProposalData) :
    Except GovError Proposal × DAOGovernance :=
  match getA g.members d.proposerId with
  | none => (.error .proposerNotFound, g)
  | some proposer =>
    let votingPeriod := d.votingPeriod.getD (7 * 24 * 60 * 60 * 1000)
    let proposal : Proposal :=
      { id := g.nextId
        title := d.title
        description := d.description
        proposerId := d.proposerId
        proposerName := proposer.name
        category := d.category.getD "general"
        status := .active
        createdAt := now
        votingStartsAt := now
        votingEndsAt := now + votingPeriod
        executionDelay := d.executionDelay.getD (2 * 24 * 60 * 60 * 1000)
        quorumThreshold := d.quorumThreshold.getD (1/2)
        approvalThreshold := d.approvalThreshold.getD (3/5)
        votes := ⟨0, 0, 0⟩
        voters := []
        result := none
        executedAt := none
        executionScheduledAt := none
        executionContext := none }
    let members' := setA g.members d.proposerId
      { proposer with proposalsCreated := proposer.proposalsCreated + 1 }
    (.ok proposal,
     { g with proposals := setA g.proposals proposal.id proposal
              members := members'
              nextId := g.nextId + 1 })

/-- `proposal.votes[voteChoice] += votePower`, indexed by the choice
string; only reached after the validity check. -/
def addChoice (t : VoteTallies) (c : String) (pw : ℚ) : VoteTallies :=
  if c = "for" then { t with «for» := t.«for» + pw }
  else if c = "against" then { t with against := t.against + pw }
  else if c = "abstain" then { t with abstain := t.abstain + pw }
  else t

/-- Lookup of the vote record stored under `(proposalId, voterId)`. -/
def getVote (l : List VoteRecord) (pid : Nat) (vid : String) :
    Option VoteRecord :=
  l.find? (fun r => r.proposalId == pid && r.voterId == vid)

/-- Successful return value of `vote`. -/
structure VoteResult where
  success : Bool
  proposalId : Nat
  currentVotes : VoteTallies
deriving DecidableEq, Repr

/-- `vote(proposalId, voterId, voteChoice)`, with the source's exact check
order: proposal found; status active; voter registered; not a duplicate;
voting window not expired (on expiry the proposal is first mutated to
CLOSED, then the call throws); choice valid; then commit. -/
def vote (g : DAOGovernance) (now : ℚ) (proposalId : Nat)
    (voterId : String) (voteChoice : String) :
    Except GovError VoteResult × DAOGovernance :=
  match getA g.proposals proposalId with
  | none => (.error .proposalNotFound, g)
  | some proposal =>
    if proposal.status ≠ .active then (.error .votingClosed, g)
    else match getA g.members voterId with
    | none => (.error .voterNotRegistered, g)
    | some voter =>
      if voterId ∈ proposal.voters then (.error .alreadyVoted, g)
      else if now > proposal.votingEndsAt then
        let closedProposal := { proposal with status := Status.closed }
        (.error .votingEnded,
         { g with proposals := setA g.proposals proposalId closedProposal })
      else if voteChoice ∉ (["for", "against", "abstain"] : List String) then
        (.error .invalidChoice, g)
      else
        let votePower := voter.votingPower
        let votes' := addChoice proposal.votes voteChoice votePower
        let proposal' := { proposal with
          votes := votes'
          voters := proposal.voters ++ [voterId] }
        let record : VoteRecord :=
          ⟨proposalId, voterId, voteChoice, votePower, now⟩
        let members' := setA g.members voterId
          { voter with votesSubmitted := voter.votesSubmitted + 1 }
        (.ok ⟨true, proposalId, votes'⟩,
         { g with proposals := setA g.proposals proposalId proposal'
                  votes := g.votes ++ [record]
                  members := members' })

/-- `totalVotingPower`: the quorum denominator, summed over all currently
registered members at finalize time. -/
def totalVotingPower (g : DAOGovernance) : ℚ :=
  (g.members.map (fun e => e.2.votingPower)).sum

/-- `finalizeProposal(proposalId)`: requires status ACTIVE or CLOSED,
computes participation/approval rates with JS division semantics, moves
the proposal to APPROVED or REJECTED, records the result and, when
approved, schedules execution after `executionDelay`. -/
def finalizeProposal (g : DAOGovernance) (now : ℚ) (proposalId : Nat) :
    Except GovError Proposal × DAOGovernance :=
  match getA g.proposals proposalId with
  | none => (.error .proposalNotFound, g)
  | some proposal =>
    if proposal.status ≠ .active ∧ proposal.status ≠ .closed then
      (.error .alreadyFinalized, g)
    else
      let totalPower := totalVotingPower g
      let totalVotes :=
        proposal.votes.«for» + proposal.votes.against + proposal.votes.abstain
      let participationRate := jsDiv totalVotes totalPower
      let approvalRate :=
        jsDiv proposal.votes.«for» (proposal.votes.«for» + proposal.votes.against)
      let quorumMet := participationRate.jsGe proposal.quorumThreshold
      let approvalMet := approvalRate.jsGe proposal.approvalThreshold
      let status' : Status := if quorumMet && approvalMet then .approved else .rejected
      let proposal' := { proposal with
        status := status'
        result := some ⟨quorumMet, approvalMet, participationRate, approvalRate, now⟩
        executionScheduledAt :=
          if quorumMet && approvalMet then some (now + proposal.executionDelay)
          else proposal.executionScheduledAt }
      (.ok proposal',
       { g with proposals := setA g.proposals proposalId proposal' })

/-- Successful return value of `executeProposal`: `{ success, proposalId,
executedAt }` — the execution context is not part of the return. -/
structure ExecResult where
  success : Bool
  proposalId : Nat
  executedAt : ℚ
deriving DecidableEq, Repr

/-- `executeProposal(proposalId, executionContext)`: requires status
APPROVED and the delay elapsed; `new Date(undefined).getTime()` is `NaN`
and `now < NaN` is `false`, so a missing `executionScheduledAt` does not
block execution. -/
def executeProposal (g : DAOGovernance) (now : ℚ) (proposalId : Nat)
    (executionContext : String) :
    Except GovError ExecResult × DAOGovernance :=
  match getA g.proposals proposalId with
  | none => (.error .proposalNotFound, g)
  | some proposal =>
    if proposal.status ≠ .approved then (.error .notApproved, g)
    else
      let delayNotElapsed : Bool :=
        match proposal.executionScheduledAt with
        | some t => now < t
        | none => false
      if delayNotElapsed then (.error .delayNotElapsed, g)
      else
        let proposal' := { proposal with
          status := .executed
          executedAt := some now
          executionContext := some executionContext }
        (.ok ⟨true, proposalId, now⟩,
         { g with proposals := setA g.proposals proposalId proposal' })

/-- `getMember(memberId)`: a bare `Map.get`, returning `undefined`
(modelled `none`) when the id is unknown; it never throws. -/
def getMember (g : DAOGovernance) (memberId : String) : Option Member :=
  getA g.members memberId

/-- `getProposal(proposalId)` fails on an unknown id, otherwise returns
the proposal (voter set serialised to an array, already a list here). -/
def getProposal (g : DAOGovernance) (proposalId : Nat) :
    Except GovError Proposal :=
  match getA g.proposals proposalId with
  | none => .error .proposalNotFound
  | some proposal => .ok proposal

deriving instance DecidableEq for Except

/-- The combined tally accumulator `votes.for + votes.against + votes.abstain`. -/
def tallySum (t : VoteTallies) : ℚ :=
  t.«for» + t.against + t.abstain

/-- Total power over the vote records stored for one proposal. -/
def voteSum (l : List VoteRecord) (pid : Nat) : ℚ :=
  ((l.filter (fun r => r.proposalId == pid)).map (·.power)).sum









/-- The data-model invariants of every reachable store: proposal ids are
below the fresh counter, vote records point at existing proposals, a
proposal's voter set mirrors the stored vote records, `sum(tallies)`
equals the power sum over the proposal's vote records, and every APPROVED
proposal carries a result and an execution schedule derived from its
finalization time. -/
structure GovInv (g : DAOGovernance) : Prop where
  pid_lt : ∀ k p, getA g.proposals k = some p → k < g.nextId
  rec_lt : ∀ r ∈ g.votes, r.proposalId < g.nextId
  voters_iff : ∀ k p, getA g.proposals k = some p →
      ∀ vid, vid ∈ p.voters ↔ (getVote g.votes k vid).isSome = true
  tally_sum : ∀ k p, getA g.proposals k = some p →
      tallySum p.votes = voteSum g.votes k
  sched : ∀ k p, getA g.proposals k = some p → p.status = .approved →
      ∃ r, p.result = some r ∧
        p.executionScheduledAt = some (r.finalizedAt + p.executionDelay)


/-- One mutating call of the engine, at some call time and arguments. -/
inductive Step : DAOGovernance → DAOGovernance → Prop where
  | registerStep (g : DAOGovernance) (now : ℚ) (d : MemberData) :
      Step g (registerMember g now d).2
  | createStep (g : DAOGovernance) (now : ℚ) (d : ProposalData) :
      Step g (createProposal g now d).2
  | voteStep (g : DAOGovernance) (now : ℚ) (pid : Nat) (vid c : String) :
      Step g (vote g now pid vid c).2
  | finalizeStep (g : DAOGovernance) (now : ℚ) (pid : Nat) :
      Step g (finalizeProposal g now pid).2
  | executeStep (g : DAOGovernance) (now : ℚ) (pid : Nat) (ctx : String) :
      Step g (executeProposal g now pid ctx).2

/-- States reachable from the freshly constructed store by any sequence
of engine calls. -/
def Reachable (g : DAOGovernance) : Prop :=
  Relation.ReflTransGen Step initGov g

/-- Forward reachability in the proposal state machine
`ACTIVE → CLOSED → APPROVED | REJECTED → EXECUTED`: `statusLe a b` holds
iff the machine can move from `a` to `b` (reflexively); REJECTED and
EXECUTED are terminal. -/
def statusLe : Status → Status → Bool
  | .active, _ => true
  | .closed, .active => false
  | .closed, _ => true
  | .approved, .approved => true
  | .approved, .executed => true
  | .approved, _ => false
  | .rejected, .rejected => true
  | .rejected, _ => false
  | .executed, .executed => true
  | .executed, _ => false

/-- Concrete trace: member data for Alice with voting power 1. -/
def dAlice : MemberData := ⟨"alice", "Alice", some 1, none, none⟩

/-- Concrete trace: Alice re-registered with voting power 0. -/
def dAlice0 : MemberData := ⟨"alice", "Alice", some 0, none, none⟩

/-- Concrete trace: member data for Bob with voting power 5. -/
def dBob5 : MemberData := ⟨"bob", "Bob", some 5, none, none⟩

/-- Concrete trace: Bob re-registered with voting power 0. -/
def dBob0 : MemberData := ⟨"bob", "Bob", some 0, none, none⟩

/-- Concrete trace: a proposal by Alice with a 100 ms voting window and a
50 ms execution delay (default thresholds 0.5 and 0.6). -/
def pdAlice : ProposalData := ⟨"T", "D", "alice", none, some 100, none, none, some 50⟩

/-- Concrete trace: the same proposal data proposed by Bob. -/
def pdBob : ProposalData := ⟨"T", "D", "bob", none, some 100, none, none, some 50⟩

/-- Trace state: Alice registered at time 0. -/
def gReg : DAOGovernance := (registerMember initGov 0 dAlice).2

/-- Trace state: proposal 0 created by Alice at time 0 (window ends at 100). -/
def gProp : DAOGovernance := (createProposal gReg 0 pdAlice).2

/-- Trace state: Alice has voted `for` at time 10. -/
def gVoted : DAOGovernance := (vote gProp 10 0 "alice" "for").2

/-- Trace state: proposal 0 finalized at time 20 (approved, execution
scheduled at 70). -/
def gFinal : DAOGovernance := (finalizeProposal gVoted 20 0).2

/-- Trace state: Alice re-registered with power 0 after proposal 0 was
created but before any vote: total registered power is 0 and all tallies
are 0. -/
def gZeroAll : DAOGovernance := (registerMember gProp 15 dAlice0).2

/-- Zero-power counterexample trace: Bob (power 5) registers, proposes,
votes `for`, and is then re-registered with power 0, leaving total
registered power 0 while `tallies.for = 5`. -/
def hReg : DAOGovernance := (registerMember initGov 0 dBob5).2

/-- Zero-power counterexample trace: Bob's proposal 0 created at time 0. -/
def hProp : DAOGovernance := (createProposal hReg 0 pdBob).2

/-- Zero-power counterexample trace: Bob has voted `for` with power 5. -/
def hVoted : DAOGovernance := (vote hProp 10 0 "bob" "for").2

/-- Zero-power counterexample trace: Bob re-registered with power 0. -/
def hZero : DAOGovernance := (registerMember hVoted 15 dBob0).2

/-- The proposal record stored in `gProp` under id 0. -/
def pActive : Proposal :=
  ⟨0, "T", "D", "alice", "Alice", "general", .active, 0, 0, 100, 50, 1/2, 3/5,
    ⟨0, 0, 0⟩, [], none, none, none, none⟩

/-- The proposal record stored in `gFinal` under id 0. -/
def pApproved : Proposal :=
  ⟨0, "T", "D", "alice", "Alice", "general", .approved, 0, 0, 100, 50, 1/2, 3/5,
    ⟨1, 0, 0⟩, ["alice"], some ⟨true, true, .num 1, .num 1, 20⟩, none, some 70, none⟩

theorem getA_setA_self {κ α : Type} [BEq κ] [LawfulBEq κ]
    (l : List (κ × α)) (k : κ) (v : α) :
    getA (setA l k v) k = some v := by
  unfold getA setA
  by_cases h : l.any (fun e => e.1 == k)
  · rw [if_pos h]
    induction l with
    | nil => simp at h
    | cons e t ih =>
      by_cases he : e.1 == k
      · simp [List.find?, he]
      · have ht : t.any (fun e => e.1 == k) := by
          simp only [List.any_cons, he, Bool.false_or] at h
          exact h
        simp only [List.map_cons, he, Bool.false_eq_true, if_false, List.find?, he]
        simpa [he] using ih ht
  · rw [if_neg h]
    have hnone : l.find? (fun e => e.1 == k) = none := by
      rw [List.find?_eq_none]
      intro x hx
      intro hpx
      exact h (List.any_of_mem hx hpx)
    rw [List.find?_append, hnone]
    simp

theorem getA_setA_ne {κ α : Type} [BEq κ] [LawfulBEq κ]
    (l : List (κ × α)) (k k' : κ) (v : α) (hne : k' ≠ k) :
    getA (setA l k v) k' = getA l k' := by
  unfold getA setA
  by_cases h : l.any (fun e => e.1 == k)
  · rw [if_pos h]
    have hmap : ∀ t : List (κ × α),
        List.find? (fun e => e.1 == k')
          (t.map (fun e => if e.1 == k then (k, v) else e)) =
        List.find? (fun e => e.1 == k') t := by
      intro t
      induction t with
      | nil => simp
      | cons e t ih =>
        by_cases he : e.1 == k
        · have h1 : ((k, v).1 == k') = false := by
            simp only [beq_eq_false_iff_ne]
            exact fun hk => hne hk.symm
          have h2 : (e.1 == k') = false := by
            simp only [beq_eq_false_iff_ne]
            have hek : e.1 = k := eq_of_beq he
            rw [hek]
            exact fun hk => hne hk.symm
          simp only [List.map_cons, he, if_true, List.find?, h1, h2]
          exact ih
        · simp only [List.map_cons, he, Bool.false_eq_true, if_false, List.find?]
          by_cases he' : e.1 == k'
          · simp [he']
          · simp only [he', Bool.false_eq_true]
            exact ih

    rw [hmap]
  · rw [if_neg h]
    rw [List.find?_append]
    have h1 : List.find? (fun e => e.1 == k') [(k, v)] = none := by
      simp only [List.find?]
      have hkk : ((k, v).1 == k') = false := by
        simp only [beq_eq_false_iff_ne]
        exact fun hk => hne hk.symm
      simp [hkk]
    rw [h1]
    cases l.find? (fun e => e.1 == k') <;> simp

theorem voteSum_append (l : List VoteRecord) (r : VoteRecord) (pid : Nat) :
    voteSum (l ++ [r]) pid =
      voteSum l pid + (if r.proposalId = pid then r.power else 0) := by
  unfold voteSum
  rw [List.filter_append]
  by_cases h : r.proposalId = pid
  · simp [h]
  · simp [h]

theorem voteSum_eq_zero (l : List VoteRecord) (pid : Nat)
    (h : ∀ r ∈ l, r.proposalId ≠ pid) : voteSum l pid = 0 := by
  unfold voteSum
  have : l.filter (fun r => r.proposalId == pid) = [] := by
    rw [List.filter_eq_nil_iff]
    intro r hr
    simp [h r hr]
  rw [this]
  simp

theorem getVote_append (l : List VoteRecord) (r : VoteRecord) (pid : Nat)
    (vid : String) :
    getVote (l ++ [r]) pid vid =
      (getVote l pid vid).or
        (if r.proposalId = pid ∧ r.voterId = vid then some r else none) := by
  unfold getVote
  rw [List.find?_append]
  congr 1
  by_cases h1 : r.proposalId = pid
  · by_cases h2 : r.voterId = vid
    · simp [List.find?, h1, h2]
    · have hb : (r.voterId == vid) = false := by
        simp [h2]
      simp [List.find?, h1, h2, hb]
  · have hb : (r.proposalId == pid) = false := by
      simp [h1]
    simp [List.find?, h1, hb]

theorem getVote_eq_none (l : List VoteRecord) (pid : Nat) (vid : String)
    (h : ∀ r ∈ l, r.proposalId ≠ pid) : getVote l pid vid = none := by
  unfold getVote
  rw [List.find?_eq_none]
  intro r hr hpr
  simp only [Bool.and_eq_true, beq_iff_eq] at hpr
  exact h r hr hpr.1

theorem tallySum_addChoice (t : VoteTallies) (c : String) (pw : ℚ)
    (h : c ∈ (["for", "against", "abstain"] : List String)) :
    tallySum (addChoice t c pw) = tallySum t + pw := by
  unfold tallySum addChoice
  simp only [List.mem_cons, List.not_mem_nil, or_false] at h
  rcases h with h | h | h
  · subst h
    rw [if_pos rfl]
    ring
  · subst h
    rw [if_neg (by decide), if_pos rfl]
    ring
  · subst h
    rw [if_neg (by decide), if_neg (by decide), if_pos rfl]
    ring


theorem isSome_or {α : Type} (a b : Option α) :
    (a.or b).isSome = (a.isSome || b.isSome) := by
  cases a <;> simp [Option.or]

theorem GovInv_init : GovInv initGov := by
  constructor <;> simp [initGov, getA]

theorem create_no_proposer (g : DAOGovernance) (now : ℚ) (d : ProposalData)
    (hm : getA g.members d.proposerId = none) :
    createProposal g now d = (.error .proposerNotFound, g) := by
  unfold createProposal
  rw [hm]

theorem vote_no_proposal (g : DAOGovernance) (now : ℚ) (pid : Nat)
    (vid c : String) (hp : getA g.proposals pid = none) :
    vote g now pid vid c = (.error .proposalNotFound, g) := by
  unfold vote
  rw [hp]

theorem vote_not_active (g : DAOGovernance) (now : ℚ) (pid : Nat)
    (vid c : String) (p : Proposal) (hp : getA g.proposals pid = some p)
    (hst : p.status ≠ .active) :
    vote g now pid vid c = (.error .votingClosed, g) := by
  unfold vote
  rw [hp]
  simp only [hst, if_pos, ne_eq, not_false_eq_true, if_true]

theorem vote_no_voter (g : DAOGovernance) (now : ℚ) (pid : Nat)
    (vid c : String) (p : Proposal) (hp : getA g.proposals pid = some p)
    (hst : p.status = .active) (hv : getA g.members vid = none) :
    vote g now pid vid c = (.error .voterNotRegistered, g) := by
  unfold vote
  rw [hp]
  simp only [hst, ne_eq, not_true_eq_false, if_false, hv]

theorem vote_duplicate (g : DAOGovernance) (now : ℚ) (pid : Nat)
    (vid c : String) (p : Proposal) (voter : Member)
    (hp : getA g.proposals pid = some p) (hst : p.status = .active)
    (hv : getA g.members vid = some voter) (hdup : vid ∈ p.voters) :
    vote g now pid vid c = (.error .alreadyVoted, g) := by
  unfold vote
  rw [hp]
  simp only [hst, ne_eq, not_true_eq_false, if_false, hv, hdup, if_true]

theorem vote_expired (g : DAOGovernance) (now : ℚ) (pid : Nat)
    (vid c : String) (p : Proposal) (voter : Member)
    (hp : getA g.proposals pid = some p) (hst : p.status = .active)
    (hv : getA g.members vid = some voter) (hdup : vid ∉ p.voters)
    (hexp : now > p.votingEndsAt) :
    vote g now pid vid c =
      (.error .votingEnded,
       ⟨setA g.proposals pid ({ p with status := Status.closed }),
        g.votes, g.members, g.nextId⟩) := by
  unfold vote
  rw [hp]
  simp only [hst, ne_eq, not_true_eq_false, if_false, hv, hdup, hexp, if_true]

theorem vote_bad_choice (g : DAOGovernance) (now : ℚ) (pid : Nat)
    (vid c : String) (p : Proposal) (voter : Member)
    (hp : getA g.proposals pid = some p) (hst : p.status = .active)
    (hv : getA g.members vid = some voter) (hdup : vid ∉ p.voters)
    (hexp : ¬ now > p.votingEndsAt)
    (hc : c ∉ (["for", "against", "abstain"] : List String)) :
    vote g now pid vid c = (.error .invalidChoice, g) := by
  unfold vote
  rw [hp]
  simp only [hst, ne_eq, not_true_eq_false, if_false, hv, hdup, hexp, hc,
    if_true, not_false_eq_true]

theorem vote_ok (g : DAOGovernance) (now : ℚ) (pid : Nat)
    (vid c : String) (p : Proposal) (voter : Member)
    (hp : getA g.proposals pid = some p) (hst : p.status = .active)
    (hv : getA g.members vid = some voter) (hdup : vid ∉ p.voters)
    (hexp : ¬ now > p.votingEndsAt)
    (hc : c ∈ (["for", "against", "abstain"] : List String)) :
    vote g now pid vid c =
      (.ok ⟨true, pid, addChoice p.votes c voter.votingPower⟩,
       ⟨setA g.proposals pid ({ p with votes := addChoice p.votes c voter.votingPower, voters := p.voters ++ [vid] }),
        g.votes ++ [⟨pid, vid, c, voter.votingPower, now⟩],
        setA g.members vid ({ voter with votesSubmitted := voter.votesSubmitted + 1 }),
        g.nextId⟩) := by
  unfold vote
  rw [hp]
  simp only [hst, ne_eq, not_true_eq_false, if_false, hv, hdup, hexp, hc,
    not_true_eq_false, if_true]

theorem finalize_no_proposal (g : DAOGovernance) (now : ℚ) (pid : Nat)
    (hp : getA g.proposals pid = none) :
    finalizeProposal g now pid = (.error .proposalNotFound, g) := by
  unfold finalizeProposal
  rw [hp]

theorem finalize_already (g : DAOGovernance) (now : ℚ) (pid : Nat)
    (p : Proposal) (hp : getA g.proposals pid = some p)
    (hst : p.status ≠ .active ∧ p.status ≠ .closed) :
    finalizeProposal g now pid = (.error .alreadyFinalized, g) := by
  unfold finalizeProposal
  rw [hp]
  dsimp only
  rw [if_pos hst]

theorem finalize_ok (g : DAOGovernance) (now : ℚ) (pid : Nat)
    (p : Proposal) (hp : getA g.proposals pid = some p)
    (hst : ¬(p.status ≠ .active ∧ p.status ≠ .closed)) :
    finalizeProposal g now pid =
      (let participationRate :=
         jsDiv (p.votes.«for» + p.votes.against + p.votes.abstain) (totalVotingPower g)
       let approvalRate :=
         jsDiv p.votes.«for» (p.votes.«for» + p.votes.against)
       let quorumMet := participationRate.jsGe p.quorumThreshold
       let approvalMet := approvalRate.jsGe p.approvalThreshold
       let proposal' := { p with
         status := if quorumMet && approvalMet then Status.approved else Status.rejected
         result := some ⟨quorumMet, approvalMet, participationRate, approvalRate, now⟩
         executionScheduledAt :=
           if quorumMet && approvalMet then some (now + p.executionDelay)
           else p.executionScheduledAt }
       (.ok proposal', { g with proposals := setA g.proposals pid proposal' })) := by
  unfold finalizeProposal
  rw [hp]
  dsimp only
  rw [if_neg hst]

theorem execute_no_proposal (g : DAOGovernance) (now : ℚ) (pid : Nat)
    (ctx : String) (hp : getA g.proposals pid = none) :
    executeProposal g now pid ctx = (.error .proposalNotFound, g) := by
  unfold executeProposal
  rw [hp]

theorem execute_not_approved (g : DAOGovernance) (now : ℚ) (pid : Nat)
    (ctx : String) (p : Proposal) (hp : getA g.proposals pid = some p)
    (hst : p.status ≠ .approved) :
    executeProposal g now pid ctx = (.error .notApproved, g) := by
  unfold executeProposal
  rw [hp]
  simp only [hst, ne_eq, not_false_eq_true, if_true]

theorem execute_too_early (g : DAOGovernance) (now : ℚ) (pid : Nat)
    (ctx : String) (p : Proposal) (t : ℚ) (hp : getA g.proposals pid = some p)
    (hst : p.status = .approved) (hsched : p.executionScheduledAt = some t)
    (hlt : now < t) :
    executeProposal g now pid ctx = (.error .delayNotElapsed, g) := by
  unfold executeProposal
  rw [hp]
  simp only [hst, ne_eq, not_true_eq_false, if_false, hsched]
  rw [if_pos (by simpa using hlt)]

theorem execute_ok (g : DAOGovernance) (now : ℚ) (pid : Nat)
    (ctx : String) (p : Proposal) (t : ℚ) (hp : getA g.proposals pid = some p)
    (hst : p.status = .approved) (hsched : p.executionScheduledAt = some t)
    (hge : ¬ now < t) :
    executeProposal g now pid ctx =
      (.ok ⟨true, pid, now⟩,
       ⟨setA g.proposals pid ({ p with status := Status.executed, executedAt := some now, executionContext := some ctx }),
        g.votes, g.members, g.nextId⟩) := by
  unfold executeProposal
  rw [hp]
  simp only [hst, ne_eq, not_true_eq_false, if_false, hsched]
  rw [if_neg (by simpa using hge)]

theorem execute_ok_no_sched (g : DAOGovernance) (now : ℚ) (pid : Nat)
    (ctx : String) (p : Proposal) (hp : getA g.proposals pid = some p)
    (hst : p.status = .approved) (hsched : p.executionScheduledAt = none) :
    executeProposal g now pid ctx =
      (.ok ⟨true, pid, now⟩,
       ⟨setA g.proposals pid ({ p with status := Status.executed, executedAt := some now, executionContext := some ctx }),
        g.votes, g.members, g.nextId⟩) := by
  unfold executeProposal
  rw [hp]
  simp only [hst, ne_eq, not_true_eq_false, if_false, hsched,
    Bool.false_eq_true]

theorem create_ok (g : DAOGovernance) (now : ℚ) (d : ProposalData)
    (proposer : Member) (hm : getA g.members d.proposerId = some proposer) :
    createProposal g now d =
      (.ok (⟨g.nextId, d.title, d.description, d.proposerId, proposer.name,
         d.category.getD "general", .active, now, now,
         now + d.votingPeriod.getD (7 * 24 * 60 * 60 * 1000),
         d.executionDelay.getD (2 * 24 * 60 * 60 * 1000),
         d.quorumThreshold.getD (1/2), d.approvalThreshold.getD (3/5),
         ⟨0, 0, 0⟩, [], none, none, none, none⟩ : Proposal),
       ⟨setA g.proposals g.nextId
          (⟨g.nextId, d.title, d.description, d.proposerId, proposer.name,
            d.category.getD "general", .active, now, now,
            now + d.votingPeriod.getD (7 * 24 * 60 * 60 * 1000),
            d.executionDelay.getD (2 * 24 * 60 * 60 * 1000),
            d.quorumThreshold.getD (1/2), d.approvalThreshold.getD (3/5),
            ⟨0, 0, 0⟩, [], none, none, none, none⟩ : Proposal),
        g.votes,
        setA g.members d.proposerId ({ proposer with proposalsCreated := proposer.proposalsCreated + 1 }),
        g.nextId + 1⟩) := by
  unfold createProposal
  rw [hm]

theorem GovInv_setA_same_votes (g : DAOGovernance) (pid : Nat)
    (p p' : Proposal) (h : GovInv g) (hp : getA g.proposals pid = some p)
    (hvoters : p'.voters = p.voters) (hvotes : p'.votes = p.votes)
    (hsched : p'.status = .approved →
      ∃ r, p'.result = some r ∧
        p'.executionScheduledAt = some (r.finalizedAt + p'.executionDelay)) :
    GovInv ⟨setA g.proposals pid p', g.votes, g.members, g.nextId⟩ := by
  constructor
  · intro k q hk
    by_cases hkeq : k = pid
    · subst hkeq
      exact h.pid_lt k p hp
    · rw [getA_setA_ne _ _ _ _ hkeq] at hk
      exact h.pid_lt k q hk
  · exact h.rec_lt
  · intro k q hk vid
    by_cases hkeq : k = pid
    · subst hkeq
      rw [getA_setA_self] at hk
      injection hk with hq
      subst hq
      rw [hvoters]
      exact h.voters_iff k p hp vid
    · rw [getA_setA_ne _ _ _ _ hkeq] at hk
      exact h.voters_iff k q hk vid
  · intro k q hk
    by_cases hkeq : k = pid
    · subst hkeq
      rw [getA_setA_self] at hk
      injection hk with hq
      subst hq
      rw [hvotes]
      exact h.tally_sum k p hp
    · rw [getA_setA_ne _ _ _ _ hkeq] at hk
      exact h.tally_sum k q hk
  · intro k q hk hap
    by_cases hkeq : k = pid
    · subst hkeq
      rw [getA_setA_self] at hk
      injection hk with hq
      subst hq
      exact hsched hap
    · rw [getA_setA_ne _ _ _ _ hkeq] at hk
      exact h.sched k q hk hap

theorem GovInv_register (g : DAOGovernance) (now : ℚ) (d : MemberData)
    (h : GovInv g) : GovInv (registerMember g now d).2 :=
  ⟨h.pid_lt, h.rec_lt, h.voters_iff, h.tally_sum, h.sched⟩

theorem GovInv_create (g : DAOGovernance) (now : ℚ) (d : ProposalData)
    (h : GovInv g) : GovInv (createProposal g now d).2 := by
  cases hm : getA g.members d.proposerId with
  | none =>
    rw [create_no_proposer g now d hm]
    exact h
  | some proposer =>
    rw [create_ok g now d proposer hm]
    constructor
    · intro k q hk
      by_cases hkeq : k = g.nextId
      · subst hkeq
        exact Nat.lt_succ_self _
      · rw [getA_setA_ne _ _ _ _ hkeq] at hk
        exact Nat.lt_succ_of_lt (h.pid_lt k q hk)
    · intro r hr
      exact Nat.lt_succ_of_lt (h.rec_lt r hr)
    · intro k q hk vid
      by_cases hkeq : k = g.nextId
      · subst hkeq
        rw [getA_setA_self] at hk
        injection hk with hq
        subst hq
        have hnone : getVote g.votes g.nextId vid = none :=
          getVote_eq_none _ _ _ (fun r hr => Nat.ne_of_lt (h.rec_lt r hr))
        simp [hnone]
      · rw [getA_setA_ne _ _ _ _ hkeq] at hk
        exact h.voters_iff k q hk vid
    · intro k q hk
      by_cases hkeq : k = g.nextId
      · subst hkeq
        rw [getA_setA_self] at hk
        injection hk with hq
        subst hq
        have hzero : voteSum g.votes g.nextId = 0 :=
          voteSum_eq_zero _ _ (fun r hr => Nat.ne_of_lt (h.rec_lt r hr))
        simp [tallySum, hzero]
      · rw [getA_setA_ne _ _ _ _ hkeq] at hk
        exact h.tally_sum k q hk
    · intro k q hk hap
      by_cases hkeq : k = g.nextId
      · subst hkeq
        rw [getA_setA_self] at hk
        injection hk with hq
        subst hq
        cases hap
      · rw [getA_setA_ne _ _ _ _ hkeq] at hk
        exact h.sched k q hk hap

theorem GovInv_vote (g : DAOGovernance) (now : ℚ) (pid : Nat) (vid c : String)
    (h : GovInv g) : GovInv (vote g now pid vid c).2 := by
  cases hp : getA g.proposals pid with
  | none =>
    rw [vote_no_proposal g now pid vid c hp]
    exact h
  | some p =>
    by_cases hst : p.status = .active
    · cases hv : getA g.members vid with
      | none =>
        rw [vote_no_voter g now pid vid c p hp hst hv]
        exact h
      | some voter =>
        by_cases hdup : vid ∈ p.voters
        · rw [vote_duplicate g now pid vid c p voter hp hst hv hdup]
          exact h
        · by_cases hexp : now > p.votingEndsAt
          · rw [vote_expired g now pid vid c p voter hp hst hv hdup hexp]
            exact GovInv_setA_same_votes g pid p _ h hp rfl rfl
              (fun hap => by cases hap)
          · by_cases hc : c ∈ (["for", "against", "abstain"] : List String)
            · rw [vote_ok g now pid vid c p voter hp hst hv hdup hexp hc]
              constructor
              · intro k q hk
                by_cases hkeq : k = pid
                · subst hkeq
                  exact h.pid_lt k p hp
                · rw [getA_setA_ne _ _ _ _ hkeq] at hk
                  exact h.pid_lt k q hk
              · intro r hr
                rcases List.mem_append.mp hr with hr | hr
                · exact h.rec_lt r hr
                · rw [List.mem_singleton] at hr
                  subst hr
                  exact h.pid_lt pid p hp
              · intro k q hk vid'
                by_cases hkeq : k = pid
                · subst hkeq
                  rw [getA_setA_self] at hk
                  injection hk with hq
                  subst hq
                  rw [getVote_append, isSome_or]
                  have hold := h.voters_iff k p hp vid'
                  by_cases hvv : vid' = vid
                  · subst hvv
                    simp [hold]
                  · have hvv' : ¬ vid = vid' := fun heq => hvv heq.symm
                    simp [hold, hvv, hvv']
                · rw [getA_setA_ne _ _ _ _ hkeq] at hk
                  rw [getVote_append, isSome_or]
                  have hcond : ¬((⟨pid, vid, c, voter.votingPower, now⟩ : VoteRecord).proposalId = k ∧
                      (⟨pid, vid, c, voter.votingPower, now⟩ : VoteRecord).voterId = vid') := by
                    intro hcond
                    exact hkeq hcond.1.symm
                  rw [if_neg hcond]
                  simp only [Option.isSome_none, Bool.or_false]
                  exact h.voters_iff k q hk vid'
              · intro k q hk
                by_cases hkeq : k = pid
                · subst hkeq
                  rw [getA_setA_self] at hk
                  injection hk with hq
                  subst hq
                  rw [voteSum_append]
                  have hcond : (⟨k, vid, c, voter.votingPower, now⟩ : VoteRecord).proposalId = k := rfl
                  rw [if_pos hcond]
                  show tallySum (addChoice p.votes c voter.votingPower) = _
                  rw [tallySum_addChoice _ _ _ hc, h.tally_sum k p hp]
                · rw [getA_setA_ne _ _ _ _ hkeq] at hk
                  rw [voteSum_append]
                  have hcond : ¬((⟨pid, vid, c, voter.votingPower, now⟩ : VoteRecord).proposalId = k) := by
                    intro hcond
                    exact hkeq hcond.symm
                  rw [if_neg hcond, add_zero]
                  exact h.tally_sum k q hk
              · intro k q hk hap
                by_cases hkeq : k = pid
                · subst hkeq
                  rw [getA_setA_self] at hk
                  injection hk with hq
                  subst hq
                  have : p.status = .approved := hap
                  rw [hst] at this
                  cases this
                · rw [getA_setA_ne _ _ _ _ hkeq] at hk
                  exact h.sched k q hk hap
            · rw [vote_bad_choice g now pid vid c p voter hp hst hv hdup hexp hc]
              exact h
    · rw [vote_not_active g now pid vid c p hp hst]
      exact h

theorem GovInv_finalize (g : DAOGovernance) (now : ℚ) (pid : Nat)
    (h : GovInv g) : GovInv (finalizeProposal g now pid).2 := by
  cases hp : getA g.proposals pid with
  | none =>
    rw [finalize_no_proposal g now pid hp]
    exact h
  | some p =>
    by_cases hst : p.status ≠ .active ∧ p.status ≠ .closed
    · rw [finalize_already g now pid p hp hst]
      exact h
    · rw [finalize_ok g now pid p hp hst]
      refine GovInv_setA_same_votes g pid p _ h hp rfl rfl ?_
      intro hap
      dsimp only at hap ⊢
      by_cases hqa : ((jsDiv (p.votes.«for» + p.votes.against + p.votes.abstain)
          (totalVotingPower g)).jsGe p.quorumThreshold &&
          (jsDiv p.votes.«for» (p.votes.«for» + p.votes.against)).jsGe
            p.approvalThreshold) = true
      · refine ⟨_, rfl, ?_⟩
        dsimp only
        rw [if_pos hqa]
      · exfalso
        rw [if_neg hqa] at hap
        cases hap

theorem GovInv_execute (g : DAOGovernance) (now : ℚ) (pid : Nat) (ctx : String)
    (h : GovInv g) : GovInv (executeProposal g now pid ctx).2 := by
  cases hp : getA g.proposals pid with
  | none =>
    rw [execute_no_proposal g now pid ctx hp]
    exact h
  | some p =>
    by_cases hst : p.status = .approved
    · cases hsched : p.executionScheduledAt with
      | none =>
        rw [execute_ok_no_sched g now pid ctx p hp hst hsched]
        exact GovInv_setA_same_votes g pid p _ h hp rfl rfl
          (fun hap => by cases hap)
      | some t =>
        by_cases hlt : now < t
        · rw [execute_too_early g now pid ctx p t hp hst hsched hlt]
          exact h
        · rw [execute_ok g now pid ctx p t hp hst hsched hlt]
          exact GovInv_setA_same_votes g pid p _ h hp rfl rfl
            (fun hap => by cases hap)
    · rw [execute_not_approved g now pid ctx p hp hst]
      exact h

theorem GovInv_step (g g' : DAOGovernance) (h : GovInv g) (s : Step g g') :
    GovInv g' := by
  cases s with
  | registerStep now d => exact GovInv_register g now d h
  | createStep now d => exact GovInv_create g now d h
  | voteStep now pid vid c => exact GovInv_vote g now pid vid c h
  | finalizeStep now pid => exact GovInv_finalize g now pid h
  | executeStep now pid ctx => exact GovInv_execute g now pid ctx h

theorem GovInv_reachable (g : DAOGovernance) (h : Reachable g) : GovInv g := by
  have h' : Relation.ReflTransGen Step initGov g := h
  clear h
  induction h' with
  | refl => exact GovInv_init
  | tail _ s ih => exact GovInv_step _ _ ih s

theorem statusLe_refl (a : Status) : statusLe a a = true := by
  cases a <;> rfl

theorem statusLe_trans (a b c : Status) (h1 : statusLe a b = true)
    (h2 : statusLe b c = true) : statusLe a c = true := by
  cases a <;> cases b <;> cases c <;> simp_all [statusLe]

theorem GovInv_rtc (g g' : DAOGovernance) (h : GovInv g)
    (hs : Relation.ReflTransGen Step g g') : GovInv g' := by
  induction hs with
  | refl => exact h
  | tail _ s ih => exact GovInv_step _ _ ih s

theorem mono_step (g g' : DAOGovernance) (hInv : GovInv g) (s : Step g g')
    (k : Nat) (p : Proposal) (hk : getA g.proposals k = some p) :
    ∃ p', getA g'.proposals k = some p' ∧ statusLe p.status p'.status = true := by
  cases s with
  | registerStep now d =>
    exact ⟨p, hk, statusLe_refl _⟩
  | createStep now d =>
    cases hm : getA g.members d.proposerId with
    | none =>
      rw [create_no_proposer g now d hm]
      exact ⟨p, hk, statusLe_refl _⟩
    | some proposer =>
      rw [create_ok g now d proposer hm]
      have hkne : k ≠ g.nextId := Nat.ne_of_lt (hInv.pid_lt k p hk)
      refine ⟨p, ?_, statusLe_refl _⟩
      rw [getA_setA_ne _ _ _ _ hkne]
      exact hk
  | voteStep now pid vid c =>
    cases hp : getA g.proposals pid with
    | none =>
      rw [vote_no_proposal g now pid vid c hp]
      exact ⟨p, hk, statusLe_refl _⟩
    | some p0 =>
      by_cases hst : p0.status = .active
      · cases hv : getA g.members vid with
        | none =>
          rw [vote_no_voter g now pid vid c p0 hp hst hv]
          exact ⟨p, hk, statusLe_refl _⟩
        | some voter =>
          by_cases hdup : vid ∈ p0.voters
          · rw [vote_duplicate g now pid vid c p0 voter hp hst hv hdup]
            exact ⟨p, hk, statusLe_refl _⟩
          · by_cases hexp : now > p0.votingEndsAt
            · rw [vote_expired g now pid vid c p0 voter hp hst hv hdup hexp]
              by_cases hkeq : k = pid
              · subst hkeq
                have hpp : p = p0 := Option.some.inj (hk.symm.trans hp)
                refine ⟨_, getA_setA_self _ _ _, ?_⟩
                rw [hpp, hst]
                rfl
              · refine ⟨p, ?_, statusLe_refl _⟩
                rw [getA_setA_ne _ _ _ _ hkeq]
                exact hk
            · by_cases hc : c ∈ (["for", "against", "abstain"] : List String)
              · rw [vote_ok g now pid vid c p0 voter hp hst hv hdup hexp hc]
                by_cases hkeq : k = pid
                · subst hkeq
                  have hpp : p = p0 := Option.some.inj (hk.symm.trans hp)
                  refine ⟨_, getA_setA_self _ _ _, ?_⟩
                  rw [hpp]
                  exact statusLe_refl _
                · refine ⟨p, ?_, statusLe_refl _⟩
                  rw [getA_setA_ne _ _ _ _ hkeq]
                  exact hk
              · rw [vote_bad_choice g now pid vid c p0 voter hp hst hv hdup hexp hc]
                exact ⟨p, hk, statusLe_refl _⟩
      · rw [vote_not_active g now pid vid c p0 hp hst]
        exact ⟨p, hk, statusLe_refl _⟩
  | finalizeStep now pid =>
    cases hp : getA g.proposals pid with
    | none =>
      rw [finalize_no_proposal g now pid hp]
      exact ⟨p, hk, statusLe_refl _⟩
    | some p0 =>
      by_cases hst : p0.status ≠ .active ∧ p0.status ≠ .closed
      · rw [finalize_already g now pid p0 hp hst]
        exact ⟨p, hk, statusLe_refl _⟩
      · rw [finalize_ok g now pid p0 hp hst]
        by_cases hkeq : k = pid
        · subst hkeq
          have hpp : p = p0 := Option.some.inj (hk.symm.trans hp)
          refine ⟨_, getA_setA_self _ _ _, ?_⟩
          have hor : p0.status = .active ∨ p0.status = .closed := by
            rw [not_and_or, not_not, not_not] at hst
            exact hst
          rw [hpp]
          dsimp only
          rcases hor with h1 | h1 <;> rw [h1] <;> split <;> rfl
        · refine ⟨p, ?_, statusLe_refl _⟩
          rw [getA_setA_ne _ _ _ _ hkeq]
          exact hk
  | executeStep now pid ctx =>
    cases hp : getA g.proposals pid with
    | none =>
      rw [execute_no_proposal g now pid ctx hp]
      exact ⟨p, hk, statusLe_refl _⟩
    | some p0 =>
      by_cases hst : p0.status = .approved
      · cases hsched : p0.executionScheduledAt with
        | none =>
          rw [execute_ok_no_sched g now pid ctx p0 hp hst hsched]
          by_cases hkeq : k = pid
          · subst hkeq
            have hpp : p = p0 := Option.some.inj (hk.symm.trans hp)
            refine ⟨_, getA_setA_self _ _ _, ?_⟩
            rw [hpp, hst]
            rfl
          · refine ⟨p, ?_, statusLe_refl _⟩
            rw [getA_setA_ne _ _ _ _ hkeq]
            exact hk
        | some t =>
          by_cases hlt : now < t
          · rw [execute_too_early g now pid ctx p0 t hp hst hsched hlt]
            exact ⟨p, hk, statusLe_refl _⟩
          · rw [execute_ok g now pid ctx p0 t hp hst hsched hlt]
            by_cases hkeq : k = pid
            · subst hkeq
              have hpp : p = p0 := Option.some.inj (hk.symm.trans hp)
              refine ⟨_, getA_setA_self _ _ _, ?_⟩
              rw [hpp, hst]
              rfl
            · refine ⟨p, ?_, statusLe_refl _⟩
              rw [getA_setA_ne _ _ _ _ hkeq]
              exact hk
      · rw [execute_not_approved g now pid ctx p0 hp hst]
        exact ⟨p, hk, statusLe_refl _⟩

theorem mono_rtc (g g' : DAOGovernance) (hInv : GovInv g)
    (h : Relation.ReflTransGen Step g g') (k : Nat) (p : Proposal)
    (hk : getA g.proposals k = some p) :
    ∃ p', getA g'.proposals k = some p' ∧ statusLe p.status p'.status = true := by
  induction h with
  | refl => exact ⟨p, hk, statusLe_refl _⟩
  | tail hsteps s ih =>
    obtain ⟨q, hq, hle⟩ := ih
    obtain ⟨p', hp', hle'⟩ :=
      mono_step _ _ (GovInv_rtc _ _ hInv hsteps) s k q hq
    exact ⟨p', hp', statusLe_trans _ _ _ hle hle'⟩

/-- C1 counterexample: in `hZero` the sum of voting power over all
currently registered members is 0 and proposal 0 is ACTIVE, yet
`finalizeProposal` computes `quorumMet = true` (participation rate is
`5 / 0 = Infinity`) and APPROVES the proposal, because Bob voted with
power 5 before being re-registered with power 0. -/
theorem finalize_zero_power_cx :
    totalVotingPower hZero = 0 ∧
    (getA hZero.proposals 0).map (·.status) = some .active ∧
    ((finalizeProposal hZero 20 0).1.map
        (fun p => (p.status, p.result.map (·.quorumMet)))) =
      .ok (.approved, some true) := by
  decide

/-- C1 (amended): if at finalize time the total registered voting power
is 0 and the proposal's tallies also sum to 0, then `finalizeProposal` on
an ACTIVE or CLOSED proposal computes `quorumMet = false` (the
participation rate is `0 / 0 = NaN` and `NaN >= q` is false) and the
proposal is REJECTED. (With zero total power but a non-zero tally sum the
rate is `Infinity` and the quorum check passes instead; see the
counterexample.) -/
theorem finalize_zero_power_zero_tallies (g : DAOGovernance) (now : ℚ)
    (pid : Nat) (p : Proposal) (hp : getA g.proposals pid = some p)
    (hst : ¬(p.status ≠ .active ∧ p.status ≠ .closed))
    (hpow : totalVotingPower g = 0)
    (hsum : p.votes.«for» + p.votes.against + p.votes.abstain = 0) :
    ∃ p', (finalizeProposal g now pid).1 = .ok p' ∧
      p'.result.map (·.quorumMet) = some false ∧
      p'.status = .rejected ∧
      getA (finalizeProposal g now pid).2.proposals pid = some p' := by
  rw [finalize_ok g now pid p hp hst]
  dsimp only
  refine ⟨_, rfl, ?_, ?_, getA_setA_self _ _ _⟩
  · rw [hpow, hsum]
    simp [jsDiv, JsNum.jsGe]
  · rw [hpow, hsum]
    simp [jsDiv, JsNum.jsGe]

/-- Witness for the amended C1 theorem at the concrete state `gZeroAll`. -/
theorem finalize_zero_power_zero_tallies_w :
    ((finalizeProposal gZeroAll 20 0).1.map
        (fun p => (p.status, p.result.map (·.quorumMet)))) =
      .ok (.rejected, some false) := by
  obtain ⟨p', h1, h2, h3, _⟩ :=
    finalize_zero_power_zero_tallies gZeroAll 20 0 pActive
      (by decide) (by decide) (by decide) (by decide)
  rw [h1]
  simp [Except.map, h2, h3]

/-- C2 counterexample: proposal 0 of `gProp` is ACTIVE and its voting
window (ending at 100) has passed at time 200, but a vote by the
unregistered voter `"ghost"` fails with `VoterNotRegistered` — not a
voting-closed failure — and the proposal's status is NOT transitioned to
CLOSED (the voter-registration check runs before the expiry check). -/
theorem vote_expired_unregistered_cx :
    (getA gProp.proposals 0).map (·.status) = some .active ∧
    (getA gProp.proposals 0).map (·.votingEndsAt) = some 100 ∧
    vote gProp 200 0 "ghost" "for" = (.error .voterNotRegistered, gProp) ∧
    GovError.voterNotRegistered.isVotingClosed = false := by
  decide

/-- C2 (amended): when the proposal is ACTIVE, the current time has
passed `votingEndsAt`, and the voter is a registered member not already
in the voter set, then `vote` fails with the voting-closed failure of the
expiry branch and, in the same operation, the proposal's status
transitions to CLOSED — for every choice, including an invalid one. For
an unregistered voter the call instead fails `VoterNotRegistered`, and
for a voter already in the set it fails `DuplicateVote`, in both cases
without the status transition. -/
theorem vote_expired_closes_and_fails (g : DAOGovernance) (now : ℚ)
    (pid : Nat) (vid c : String) (p : Proposal) (voter : Member)
    (hp : getA g.proposals pid = some p) (hst : p.status = .active)
    (hv : getA g.members vid = some voter) (hdup : vid ∉ p.voters)
    (hexp : now > p.votingEndsAt) :
    (vote g now pid vid c).1 = .error .votingEnded ∧
    GovError.votingEnded.isVotingClosed = true ∧
    getA (vote g now pid vid c).2.proposals pid =
      some ({ p with status := Status.closed }) := by
  rw [vote_expired g now pid vid c p voter hp hst hv hdup hexp]
  exact ⟨rfl, rfl, getA_setA_self _ _ _⟩

/-- Witness for the amended C2 theorem: Alice votes with the invalid
choice `"banana"` at time 200 on the expired proposal 0 of `gProp`. -/
theorem vote_expired_closes_and_fails_w :
    (vote gProp 200 0 "alice" "banana").1 = .error .votingEnded ∧
    GovError.votingEnded.isVotingClosed = true ∧
    getA (vote gProp 200 0 "alice" "banana").2.proposals 0 =
      some ({ pActive with status := Status.closed }) :=
  vote_expired_closes_and_fails gProp 200 0 "alice" "banana" pActive
    (⟨"alice", "Alice", 1, "member", false, 0, 1, 0⟩ : Member)
    (by decide) (by decide) (by decide) (by decide) (by decide)

/-- C3 counterexample: the failing call `vote gProp 200 0 "alice" "for"`
(voting window expired) mutates shared state: the proposal's status moves
from ACTIVE to CLOSED even though the call fails. -/
theorem vote_failure_mutates_cx :
    (vote gProp 200 0 "alice" "for").1 = .error .votingEnded ∧
    (vote gProp 200 0 "alice" "for").2 ≠ gProp := by
  decide

/-- C3 (amended): a failing call to any core operation leaves the shared
store unchanged, with one exception: a `vote` call failing on the expired
voting window (the lazy-expiry branch) also sets that proposal's status
to CLOSED and changes nothing else. `registerMember` has no failure
paths. -/
theorem failed_ops_preserve_state :
    (∀ g now d e, (createProposal g now d).1 = .error e →
        (createProposal g now d).2 = g) ∧
    (∀ g now pid vid c e, (vote g now pid vid c).1 = .error e →
        (vote g now pid vid c).2 = g ∨
        (e = .votingEnded ∧ ∃ p, getA g.proposals pid = some p ∧
          p.status = .active ∧
          (vote g now pid vid c).2 =
            ⟨setA g.proposals pid ({ p with status := Status.closed }),
             g.votes, g.members, g.nextId⟩)) ∧
    (∀ g now pid e, (finalizeProposal g now pid).1 = .error e →
        (finalizeProposal g now pid).2 = g) ∧
    (∀ g now pid ctx e, (executeProposal g now pid ctx).1 = .error e →
        (executeProposal g now pid ctx).2 = g) := by
  refine ⟨?_, ?_, ?_, ?_⟩
  · intro g now d e he
    cases hm : getA g.members d.proposerId with
    | none => rw [create_no_proposer g now d hm]
    | some proposer =>
      rw [create_ok g now d proposer hm] at he
      simp at he
  · intro g now pid vid c e he
    cases hp : getA g.proposals pid with
    | none =>
      left
      rw [vote_no_proposal g now pid vid c hp]
    | some p =>
      by_cases hst : p.status = .active
      · cases hv : getA g.members vid with
        | none =>
          left
          rw [vote_no_voter g now pid vid c p hp hst hv]
        | some voter =>
          by_cases hdup : vid ∈ p.voters
          · left
            rw [vote_duplicate g now pid vid c p voter hp hst hv hdup]
          · by_cases hexp : now > p.votingEndsAt
            · right
              refine ⟨?_, p, hp ▸ rfl, hst, ?_⟩
              · rw [vote_expired g now pid vid c p voter hp hst hv hdup hexp] at he
                simpa using he.symm
              · rw [vote_expired g now pid vid c p voter hp hst hv hdup hexp]
            · by_cases hc : c ∈ (["for", "against", "abstain"] : List String)
              · rw [vote_ok g now pid vid c p voter hp hst hv hdup hexp hc] at he
                simp at he
              · left
                rw [vote_bad_choice g now pid vid c p voter hp hst hv hdup hexp hc]
      · left
        rw [vote_not_active g now pid vid c p hp hst]
  · intro g now pid e he
    cases hp : getA g.proposals pid with
    | none => rw [finalize_no_proposal g now pid hp]
    | some p =>
      by_cases hst : p.status ≠ .active ∧ p.status ≠ .closed
      · rw [finalize_already g now pid p hp hst]
      · rw [finalize_ok g now pid p hp hst] at he
        simp at he
  · intro g now pid ctx e he
    cases hp : getA g.proposals pid with
    | none => rw [execute_no_proposal g now pid ctx hp]
    | some p =>
      by_cases hst : p.status = .approved
      · cases hsched : p.executionScheduledAt with
        | none =>
          rw [execute_ok_no_sched g now pid ctx p hp hst hsched] at he
          simp at he
        | some t =>
          by_cases hlt : now < t
          · rw [execute_too_early g now pid ctx p t hp hst hsched hlt]
          · rw [execute_ok g now pid ctx p t hp hst hsched hlt] at he
            simp at he
      · rw [execute_not_approved g now pid ctx p hp hst]

/-- Witness for the amended C3 theorem: the second `finalizeProposal` on
the already-finalized proposal 0 of `gFinal` fails and leaves the store
unchanged. -/
theorem failed_ops_preserve_state_w :
    (finalizeProposal gFinal 30 0).2 = gFinal :=
  failed_ops_preserve_state.2.2.1 gFinal 30 0 .alreadyFinalized (by decide)

/-- C4: for every `finalizeProposal` call on an ACTIVE or CLOSED proposal
with `tallies.for = 0` and `tallies.against = 0` (only abstain votes, or
no votes at all), the computed result has `approvalMet = false`: the
approval rate is `0 / 0 = NaN` and `NaN >= a` is false for every
threshold. -/
theorem finalize_abstain_only_approval_not_met (g : DAOGovernance)
    (now : ℚ) (pid : Nat) (p : Proposal)
    (hp : getA g.proposals pid = some p)
    (hst : ¬(p.status ≠ .active ∧ p.status ≠ .closed))
    (hfor : p.votes.«for» = 0) (hagainst : p.votes.against = 0) :
    ∃ p', (finalizeProposal g now pid).1 = .ok p' ∧
      p'.result.map (·.approvalMet) = some false := by
  rw [finalize_ok g now pid p hp hst]
  dsimp only
  refine ⟨_, rfl, ?_⟩
  rw [hfor, hagainst]
  simp [jsDiv, JsNum.jsGe]

/-- Witness for C4 at the concrete state `gProp` (no votes cast). -/
theorem finalize_abstain_only_approval_not_met_w :
    ((finalizeProposal gProp 20 0).1.map
        (fun p => p.result.map (·.approvalMet))) = .ok (some false) := by
  obtain ⟨p', h1, h2⟩ :=
    finalize_abstain_only_approval_not_met gProp 20 0 pActive
      (by decide) (by decide) (by decide) (by decide)
  rw [h1]
  simp [Except.map, h2]

/-- C5: `finalizeProposal` on a proposal whose status is already
APPROVED, REJECTED or EXECUTED fails with `AlreadyFinalized`, and the
whole store — members, proposals, votes — is exactly the pre-call
state. -/
theorem finalize_already_finalized_error (g : DAOGovernance) (now : ℚ)
    (pid : Nat) (p : Proposal) (hp : getA g.proposals pid = some p)
    (hst : p.status = .approved ∨ p.status = .rejected ∨
      p.status = .executed) :
    finalizeProposal g now pid = (.error .alreadyFinalized, g) := by
  apply finalize_already g now pid p hp
  rcases hst with h | h | h <;> rw [h] <;> exact ⟨by decide, by decide⟩

/-- Witness for C5: a second finalize on proposal 0 of `gFinal`. -/
theorem finalize_already_finalized_error_w :
    finalizeProposal gFinal 30 0 = (.error .alreadyFinalized, gFinal) :=
  finalize_already_finalized_error gFinal 30 0 pApproved (by decide)
    (Or.inl (by decide))

/-- C6: across every sequence of operations from the initial store, a
proposal's status only moves forward through the machine
`ACTIVE → CLOSED → APPROVED | REJECTED → EXECUTED` (`statusLe` is forward
reachability in that machine, under which REJECTED and EXECUTED reach
only themselves, so terminal states are never left). -/
theorem status_monotone (g g' : DAOGovernance) (hre : Reachable g)
    (hs : Relation.ReflTransGen Step g g') (k : Nat) (p p' : Proposal)
    (hk : getA g.proposals k = some p)
    (hk' : getA g'.proposals k = some p') :
    statusLe p.status p'.status = true := by
  obtain ⟨q, hq, hle⟩ := mono_rtc g g' (GovInv_reachable g hre) hs k p hk
  rw [hk'] at hq
  rw [Option.some.inj hq]
  exact hle

/-- Witness for C6 along the concrete trace `gProp ⟶ gVoted ⟶ gFinal`. -/
theorem status_monotone_w : statusLe Status.active Status.approved = true := by
  have hre : Reachable gProp :=
    Relation.ReflTransGen.tail
      (Relation.ReflTransGen.tail Relation.ReflTransGen.refl
        (Step.registerStep initGov 0 dAlice))
      (Step.createStep gReg 0 pdAlice)
  have hs : Relation.ReflTransGen Step gProp gFinal :=
    Relation.ReflTransGen.tail
      (Relation.ReflTransGen.tail Relation.ReflTransGen.refl
        (Step.voteStep gProp 10 0 "alice" "for"))
      (Step.finalizeStep gVoted 20 0)
  exact status_monotone gProp gFinal hre hs 0 pActive pApproved
    (by decide) (by decide)

/-- C7: in every reachable state, for every stored proposal, the sum of
the three tally accumulators equals the sum of the `power` fields over
the vote records stored for that proposal. -/
theorem tally_sum_eq_vote_power_sum (g : DAOGovernance)
    (hre : Reachable g) (k : Nat) (p : Proposal)
    (hk : getA g.proposals k = some p) :
    p.votes.«for» + p.votes.against + p.votes.abstain =
      ((g.votes.filter (fun r => r.proposalId == k)).map (·.power)).sum :=
  (GovInv_reachable g hre).tally_sum k p hk

/-- Witness for C7 at the concrete reachable state `gFinal`. -/
theorem tally_sum_eq_vote_power_sum_w :
    pApproved.votes.«for» + pApproved.votes.against + pApproved.votes.abstain =
      ((gFinal.votes.filter (fun r => r.proposalId == 0)).map (·.power)).sum := by
  have hre : Reachable gFinal :=
    Relation.ReflTransGen.tail
      (Relation.ReflTransGen.tail
        (Relation.ReflTransGen.tail
          (Relation.ReflTransGen.tail Relation.ReflTransGen.refl
            (Step.registerStep initGov 0 dAlice))
          (Step.createStep gReg 0 pdAlice))
        (Step.voteStep gProp 10 0 "alice" "for"))
      (Step.finalizeStep gVoted 20 0)
  exact tally_sum_eq_vote_power_sum gFinal hre 0 pApproved (by decide)

/-- C8 counterexample: the return value of `executeProposal` does not
contain the execution context — two calls on `gFinal` with different
contexts return identical values `{ success, proposalId, executedAt }` —
so the claim's "executionContext … returned to the caller" fails on the
code (the context is only stored on the proposal record). -/
theorem execute_context_not_returned_cx :
    (executeProposal gFinal 100 0 "ctxA").1 =
      (executeProposal gFinal 100 0 "ctxB").1 ∧
    "ctxA" ≠ "ctxB" ∧
    (executeProposal gFinal 100 0 "ctxA").1 = .ok ⟨true, 0, 100⟩ ∧
    (getA gFinal.proposals 0).map (·.status) = some .approved := by
  decide

/-- C8 (amended): for every existing proposal, `executeProposal` fails
`NotApproved` exactly when the status is not APPROVED; when APPROVED with
a scheduled time, it fails `DelayNotElapsed` exactly when the current
time is strictly before `executionScheduledAt`; otherwise it succeeds,
setting status to EXECUTED and `executedAt` to the current time, storing
`executionContext` verbatim on the proposal record, and returning
`{ success, proposalId, executedAt }` (the context is not part of the
return value). -/
theorem execute_spec (g : DAOGovernance) (now : ℚ) (pid : Nat)
    (ctx : String) (p : Proposal) (hp : getA g.proposals pid = some p) :
    (p.status ≠ .approved →
      executeProposal g now pid ctx = (.error .notApproved, g)) ∧
    (p.status = .approved → ∀ t, p.executionScheduledAt = some t →
      (now < t →
        executeProposal g now pid ctx = (.error .delayNotElapsed, g)) ∧
      (¬ now < t →
        (executeProposal g now pid ctx).1 = .ok ⟨true, pid, now⟩ ∧
        getA (executeProposal g now pid ctx).2.proposals pid =
          some ({ p with status := Status.executed, executedAt := some now, executionContext := some ctx }))) := by
  refine ⟨fun hst => execute_not_approved g now pid ctx p hp hst,
    fun hst t hsched =>
      ⟨fun hlt => execute_too_early g now pid ctx p t hp hst hsched hlt,
       fun hge => ?_⟩⟩
  rw [execute_ok g now pid ctx p t hp hst hsched hge]
  exact ⟨rfl, getA_setA_self _ _ _⟩

/-- Witness for the amended C8 theorem: executing proposal 0 of `gFinal`
at time 100 (past the scheduled time 70). -/
theorem execute_spec_w :
    (executeProposal gFinal 100 0 "ctx").1 = .ok ⟨true, 0, 100⟩ ∧
    getA (executeProposal gFinal 100 0 "ctx").2.proposals 0 =
      some ({ pApproved with status := Status.executed, executedAt := some 100, executionContext := some "ctx" }) :=
  ((execute_spec gFinal 100 0 "ctx" pApproved (by decide)).2
    (by decide) 70 (by decide)).2 (by decide)

/-- C9 counterexample: `getMember` on an unknown id returns `undefined`
(modelled `none`) — the call succeeds instead of failing with a
NotFound error (`return this.members.get(memberId)` has no throw). -/
theorem getMember_no_throw_cx :
    getMember gReg "alice" = some (mkMember 0 dAlice) ∧
    getMember gReg "bob" = none := by
  decide

/-- C9 (amended): `getMember(id)` returns the (most recently) registered
member record when one exists and `undefined` (`none`) when none does; it
never fails. Registration affects exactly the registered id. -/
theorem getMember_register_spec (g : DAOGovernance) (now : ℚ)
    (d : MemberData) :
    getMember (registerMember g now d).2 d.id = some (mkMember now d) ∧
    (∀ id2, id2 ≠ d.id →
      getMember (registerMember g now d).2 id2 = getMember g id2) ∧
    getMember initGov d.id = none :=
  ⟨getA_setA_self _ _ _,
   fun id2 hne => getA_setA_ne g.members d.id id2 (mkMember now d) hne, rfl⟩

/-- Witness for the amended C9 theorem at the registration of Alice. -/
theorem getMember_register_spec_w :
    getMember gReg "alice" = some (mkMember 0 dAlice) ∧
    getMember gReg "zed" = getMember initGov "zed" :=
  ⟨(getMember_register_spec initGov 0 dAlice).1,
   (getMember_register_spec initGov 0 dAlice).2.1 "zed" (by decide)⟩

/-- C10: in every reachable state, every APPROVED proposal carries a
finalization result and a non-null `executionScheduledAt` equal to its
finalization time plus its `executionDelay`; the delay comparison in
`executeProposal` is therefore made against a defined timestamp for every
APPROVED proposal. -/
theorem approved_has_schedule (g : DAOGovernance) (hre : Reachable g)
    (k : Nat) (p : Proposal) (hk : getA g.proposals k = some p)
    (hap : p.status = .approved) :
    ∃ r, p.result = some r ∧
      p.executionScheduledAt = some (r.finalizedAt + p.executionDelay) :=
  (GovInv_reachable g hre).sched k p hk hap

/-- Witness for C10 at the concrete approved proposal of `gFinal`
(finalized at 20, delay 50, scheduled at 70). -/
theorem approved_has_schedule_w :
    pApproved.executionScheduledAt = some (20 + 50) := by
  have hre : Reachable gFinal :=
    Relation.ReflTransGen.tail
      (Relation.ReflTransGen.tail
        (Relation.ReflTransGen.tail
          (Relation.ReflTransGen.tail Relation.ReflTransGen.refl
            (Step.registerStep initGov 0 dAlice))
          (Step.createStep gReg 0 pdAlice))
        (Step.voteStep gProp 10 0 "alice" "for"))
      (Step.finalizeStep gVoted 20 0)
  obtain ⟨r, hr, hs⟩ :=
    approved_has_schedule gFinal hre 0 pApproved (by decide) (by decide)
  have hr2 : (⟨true, true, .num 1, .num 1, 20⟩ : FinalResult) = r :=
    Option.some.inj hr
  rw [hs, ← hr2]
  rfl
